import Mathlib

/-!
Verification of the Hiesenoether interpreter core.

The development shallowly embeds, in Lean, the parts of the interpreter
that the checked properties concern:

* `UnstableValue` / `StableValue` — the value model of `src/values.py`;
* `EnergySystem` / `EnergyEscrow` — the energy ledger of `src/energy.py`;
* `Runtime`, `Expr`, `Stmt`, `exec_stmt`, `eval_expr`, `check_invariants`,
  `run` — the numeric fragment of the evaluator of `src/runtime.py`.

Python dictionaries are embedded as association lists with first-match
lookup and in-place replacement (`dictGet` / `dictSet`); Python sets as
lists with membership; machine integers of the host as `Int` (Python
integers are unbounded, so no modular wrap is needed).  The language
fragment embedded for the runtime claims is the numeric one: every value
flowing through the embedded expressions is an integer, which is the
only kind of value the checked properties involve.
-/

namespace Hiesenoether

/-- First-match lookup in an association list, embedding Python
`dict.__getitem__` / `dict.get`. -/
def dictGet {α : Type} : List (String × α) → String → Option α
  | [], _ => none
  | (k2, v) :: rest, k => if k2 = k then some v else dictGet rest k

/-- In-place update (or append) in an association list, embedding Python
`dict.__setitem__`. -/
def dictSet {α : Type} : List (String × α) → String → α → List (String × α)
  | [], k, v => [(k, v)]
  | (k2, v2) :: rest, k, v =>
      if k2 = k then (k2, v) :: rest else (k2, v2) :: dictSet rest k v

/-! ## Value model (`src/values.py`) -/

/-- `UnstableValue` of `src/values.py`: `base_value`, `access_count`
(starts 0), `is_stable` (starts false). -/
structure UnstableValue where
  base_value : Int
  access_count : Nat
  is_stable : Bool
  deriving Repr, DecidableEq

/-- Fresh unstable wrapper, embedding `UnstableValue.__init__`. -/
def UnstableValue.mk0 (value : Int) : UnstableValue :=
  { base_value := value, access_count := 0, is_stable := false }

/-- `UnstableValue.get` (`values.py` lines 18–28): if stable, return the
frozen `base_value` unchanged; else return `base_value + access_count`
and increment `access_count`.  The Python method mutates `self`; the
embedding returns the read result together with the updated value. -/
def UnstableValue.get (v : UnstableValue) : Int × UnstableValue :=
  if v.is_stable then (v.base_value, v)
  else (v.base_value + (v.access_count : Int),
        { v with access_count := v.access_count + 1 })

/-- `UnstableValue.stabilize` (`values.py` lines 30–38): if not already
stable, set `base_value := base_value + access_count` and mark stable. -/
def UnstableValue.stabilize (v : UnstableValue) : UnstableValue :=
  if v.is_stable then v
  else { v with base_value := v.base_value + (v.access_count : Int),
                is_stable := true }

/-- The value produced by the `n`-th read of `v` (0-indexed) when `v` is
read repeatedly through `UnstableValue.get`, each read feeding its
updated state to the next. -/
def UnstableValue.reads (v : UnstableValue) : Nat → Int
  | 0 => v.get.1
  | n + 1 => v.get.2.reads n

/-- `StableValue` of `src/values.py`: `get` always returns the stored
value and mutates nothing. -/
structure StableValue where
  value : Int
  deriving Repr, DecidableEq

/-- `StableValue.get`: always the same value. -/
def StableValue.get (v : StableValue) : Int := v.value

/-! ## Spec-side model of the unstable read (for claim C3)

The spec describes a richer read rule with an entropy factor and an
energy pressure factor.  The following model is written from the spec's
words, to be compared with `UnstableValue.get` above (which is written
from the code).  Reals are modelled as `ℚ`; with no energy context the
spec fixes `pressure = 1`, which is the situation at every call site of
the code (no call site passes an energy context). -/

/-- Spec-side unstable value: `baseValue`, `accessCount` (starts 0),
`entropy` (starts 1), `stableFlag` (starts false).  Written from the
spec's words, not from the code. -/
structure SpecUnstableValue where
  baseValue : ℚ
  accessCount : ℚ
  entropy : ℚ
  stableFlag : Bool
  deriving Repr, DecidableEq

/-- Spec-side read, written from the spec's words (no energy context, so
`pressure = 1`): return `baseValue + accessCount * entropy * pressure`,
then `accessCount += 1` and `entropy += pressure * (1/10)`. -/
def SpecUnstableValue.get (v : SpecUnstableValue) : ℚ × SpecUnstableValue :=
  if v.stableFlag then (v.baseValue, v)
  else
    let pressure : ℚ := 1
    let drift : ℚ := v.accessCount * v.entropy * pressure
    (v.baseValue + drift,
     { v with accessCount := v.accessCount + 1,
              entropy := v.entropy + pressure * (1 / 10) })

/-! ## Energy ledger (`src/energy.py`) -/

/-- `EnergyEscrow` of `src/energy.py`.  Function outputs compared by the
escrow mechanism are integers in the numeric fragment; `last_output`
starts as Python `None`, embedded as `none`. -/
structure EnergyEscrow where
  function_name : String
  amount : Int
  released : Bool
  call_count : Nat
  last_output : Option Int
  deriving Repr, DecidableEq

/-- The `COSTS` table of `EnergySystem.__init__`. -/
def COSTS : List (String × Int) :=
  [("stabilize", 5), ("stable_var", 5), ("declare_fn", 3),
   ("declare_pure_fn", 3), ("declare_unstable_fn", 1), ("inspect", 2),
   ("invariant", 10), ("assert", 1), ("stable_if", 3), ("stable_while", 3)]

/-- The `GAINS` table of `EnergySystem.__init__`. -/
def GAINS : List (String × Int) :=
  [("pure_fn_proof", 4), ("unstable_fn_call", 4)]

/-- The `REMOVAL_GAINS` table of `EnergySystem.__init__`. -/
def REMOVAL_GAINS : List (String × Int) :=
  [("invariants", 20), ("stable_control", 15), ("inspection", 10)]

/-- `EnergySystem` of `src/energy.py`: the mutable ledger fields.  The
three cost/gain tables are configuration constants (`COSTS`, `GAINS`,
`REMOVAL_GAINS` above) and are never mutated at runtime. -/
structure EnergySystem where
  current_energy : Int
  max_energy : Int
  removed_capabilities : List String
  escrows : List (String × EnergyEscrow)
  deriving Repr, DecidableEq

/-- `EnergySystem.__init__`: empty ledger, 0/0 energy. -/
def EnergySystem.init : EnergySystem :=
  { current_energy := 0, max_energy := 0,
    removed_capabilities := [], escrows := [] }

/-- `EnergySystem.set_initial_energy`. -/
def EnergySystem.set_initial_energy (s : EnergySystem) (amount : Int) :
    EnergySystem :=
  { s with current_energy := amount, max_energy := amount }

/-- `EnergySystem.spend` (`energy.py` lines 61–72): look up the cost
(default 0), deduct and return `true` if affordable, else mutate nothing
and return `false`. -/
def EnergySystem.spend (s : EnergySystem) (operation : String) :
    EnergySystem × Bool :=
  let cost := (dictGet COSTS operation).getD 0
  if s.current_energy ≥ cost then
    ({ s with current_energy := s.current_energy - cost }, true)
  else
    (s, false)

/-- `EnergySystem.check_cost`: pure lookup. -/
def EnergySystem.check_cost (operation : String) : Int :=
  (dictGet COSTS operation).getD 0

/-- `EnergySystem.create_escrow` (`energy.py` lines 78–89): for an
unstable function, install a fresh escrow whose amount is
`GAINS['unstable_fn_call']` (present in the table, value 4). -/
def EnergySystem.create_escrow (s : EnergySystem) (function_name : String)
    (is_unstable : Bool) : EnergySystem :=
  if is_unstable then
    let fresh : EnergyEscrow :=
      { function_name := function_name,
        amount := (dictGet GAINS "unstable_fn_call").getD 0,
        released := false, call_count := 0, last_output := none }
    { s with escrows := dictSet s.escrows function_name fresh }
  else s

/-- `EnergySystem.release_escrow` (`energy.py` lines 91–119): no escrow →
return 0 with no mutation; otherwise increment `call_count`; first call
records the output, marks released, credits the amount and returns it;
second call deducts a flat 6 and returns −6 when the output repeats,
else returns 0; later calls return 0 (only `call_count` advances). -/
def EnergySystem.release_escrow (s : EnergySystem) (function_name : String)
    (output : Int) : EnergySystem × Int :=
  match dictGet s.escrows function_name with
  | none => (s, 0)
  | some e =>
    let e1 := { e with call_count := e.call_count + 1 }
    if e1.call_count = 1 then
      let e2 := { e1 with last_output := some output, released := true }
      ({ s with escrows := dictSet s.escrows function_name e2,
                current_energy := s.current_energy + e2.amount }, e2.amount)
    else if e1.call_count = 2 then
      if some output = e1.last_output then
        ({ s with escrows := dictSet s.escrows function_name e1,
                  current_energy := s.current_energy - 6 }, -6)
      else
        ({ s with escrows := dictSet s.escrows function_name e1 }, 0)
    else
      ({ s with escrows := dictSet s.escrows function_name e1 }, 0)

/-- `EnergySystem.burn_unreleased_escrows` (`energy.py` lines 121–130):
sums the amounts of the unreleased escrows and returns the total.  The
Python body reads `self.escrows` and local `total_burned` only — it
assigns no ledger field, so the embedding is a pure function of the
state. -/
def EnergySystem.burn_unreleased_escrows (s : EnergySystem) : Int :=
  s.escrows.foldl
    (fun total p => if p.2.released then total else total + p.2.amount) 0

/-- Spec-side burn, written from the spec's words (for claim C1): for
every escrow whose `released` flag is still false, deduct its amount
from `currentEnergy` and add it to a running total; return the new
ledger together with the total. -/
def EnergySystem.burn_unreleased_escrows_spec (s : EnergySystem) :
    EnergySystem × Int :=
  let total := s.escrows.foldl
    (fun total p => if p.2.released then total else total + p.2.amount) 0
  ({ s with current_energy := s.current_energy - total }, total)

/-- `EnergySystem.remove_capability` (`energy.py` lines 132–147): fail
with no mutation if already removed or if the configured gain is not
positive; otherwise record the removal and credit the gain to both
`current_energy` and `max_energy`. -/
def EnergySystem.remove_capability (s : EnergySystem) (capability : String) :
    EnergySystem × Bool :=
  if capability ∈ s.removed_capabilities then
    (s, false)
  else
    let gain := (dictGet REMOVAL_GAINS capability).getD 0
    if gain > 0 then
      ({ s with removed_capabilities := capability :: s.removed_capabilities,
                max_energy := s.max_energy + gain,
                current_energy := s.current_energy + gain }, true)
    else
      (s, false)

/-- `EnergySystem.has_capability`. -/
def EnergySystem.has_capability (s : EnergySystem) (capability : String) :
    Bool :=
  decide (capability ∉ s.removed_capabilities)

/-! ## Evaluator fragment (`src/runtime.py`)

The embedded fragment is the numeric sublanguage that the checked
properties exercise: number literals and identifiers as expressions, and
the statement forms energy declaration, assignment (plain / `stable`),
`stabilize`, `invariant`, `query energy`, `return`, and the `for` loop.
Statements that only print (`print`, `query energy`, `inspect`) have
their console output ignored by the embedding; their state effects are
kept. -/

/-- A variable binding in the runtime: either an `UnstableValue` or a
`StableValue` (`Function` bindings play no part in the embedded
fragment). -/
inductive Value
  | unstableV (u : UnstableValue)
  | stableV (v : StableValue)
  deriving Repr, DecidableEq

/-- Dispatch `get` over the two wrapper kinds, returning the read result
and the (possibly mutated) wrapper, as the Python objects mutate in
place. -/
def Value.get : Value → Int × Value
  | .unstableV u => ((u.get).1, .unstableV (u.get).2)
  | .stableV v => (v.get, .stableV v)

/-- Dispatch `stabilize` over the two wrapper kinds (`StableValue`'s is
a no-op). -/
def Value.stabilizeValue : Value → Value
  | .unstableV u => .unstableV u.stabilize
  | .stableV v => .stableV v

/-- Expressions of the embedded numeric fragment: `Number` literals and
`Identifier`s (`ast_nodes.py`). -/
inductive Expr
  | num (n : Int)
  | ident (name : String)
  deriving Repr, DecidableEq

/-- Statements of the embedded fragment (`ast_nodes.py`).  In the source
the `For` node carries an iterable expression which `exec_stmt`
(`runtime.py` lines 205–214) first evaluates and requires to be a host
`range` or `list`; the embedding models the per-item loop of lines
216–221, carrying the resulting item list directly. -/
inductive Stmt
  | energyDecl (amount : Int)
  | assignment (name : String) (value : Expr) (is_stable : Bool)
  | stabilizeStmt (name : String)
  | invariantStmt (condition : Expr)
  | queryEnergy
  | ret (value : Option Expr)
  | forItems (var : String) (items : List Int) (body : List Stmt)

/-- The `Runtime` state of `runtime.py`: ledger, globals, local-frame
stack, registered invariants, and the ambient return signal. -/
structure Runtime where
  energy : EnergySystem
  globals : List (String × Value)
  locals_stack : List (List (String × Value))
  invariants : List Expr
  return_value : Option Int
  returning : Bool
  deriving Repr, DecidableEq

/-- `Runtime.__init__`. -/
def Runtime.init : Runtime :=
  { energy := EnergySystem.init, globals := [], locals_stack := [],
    invariants := [], return_value := none, returning := false }

/-- `Runtime.get_var` (`runtime.py` lines 30–41): consult the top local
frame if one exists, then the globals; error if absent in both. -/
def Runtime.get_var (rt : Runtime) (name : String) : Except String Value :=
  let fromGlobals : Except String Value :=
    match dictGet rt.globals name with
    | some v => .ok v
    | none => .error "Undefined variable"
  match rt.locals_stack with
  | frame :: _ =>
    match dictGet frame name with
    | some v => .ok v
    | none => fromGlobals
  | [] => fromGlobals

/-- `Runtime.set_var` (`runtime.py` lines 43–48): write into the top
local frame only when `is_local` is true AND a local frame exists;
otherwise write into the globals. -/
def Runtime.set_var (rt : Runtime) (name : String) (value : Value)
    (is_local : Bool) : Runtime :=
  match is_local, rt.locals_stack with
  | true, frame :: rest =>
      { rt with locals_stack := dictSet frame name value :: rest }
  | _, _ => { rt with globals := dictSet rt.globals name value }

/-- Write a (mutated) wrapper back to where `get_var` found it: the top
local frame when the name is bound there, else the globals.  This
embeds the in-place mutation of the shared Python object. -/
def Runtime.write_back (rt : Runtime) (name : String) (value : Value) :
    Runtime :=
  match rt.locals_stack with
  | frame :: rest =>
    match dictGet frame name with
    | some _ => { rt with locals_stack := dictSet frame name value :: rest }
    | none => { rt with globals := dictSet rt.globals name value }
  | [] => { rt with globals := dictSet rt.globals name value }

/-- `Runtime.eval_expr` (`runtime.py` lines 232–247, numeric fragment):
a number literal returns its value; an identifier resolves via
`get_var`, unwraps through `get()` (which may mutate the wrapper, hence
the updated state in the result), and errors when undefined. -/
def Runtime.eval_expr (rt : Runtime) : Expr → Except String (Int × Runtime)
  | .num n => .ok (n, rt)
  | .ident name =>
    match rt.get_var name with
    | .error msg => .error msg
    | .ok v =>
      let r := Value.get v
      .ok (r.1, rt.write_back name r.2)

/-- Evaluate a list of invariant conditions in order, failing on the
first falsy result (`runtime.py` lines 64–67).  Evaluation threads the
state because reading an identifier can mutate the bound value. -/
def Runtime.check_list (rt : Runtime) : List Expr → Except String Runtime
  | [] => .ok rt
  | e :: rest =>
    match rt.eval_expr e with
    | .error msg => .error msg
    | .ok (v, rt1) =>
      if v = 0 then .error "Invariant violated" else rt1.check_list rest

/-- `Runtime.check_invariants` (`runtime.py` lines 59–67): a no-op when
the `invariants` capability has been removed; otherwise re-evaluate
every registered invariant, failing on a falsy result. -/
def Runtime.check_invariants (rt : Runtime) : Except String Runtime :=
  if rt.energy.has_capability "invariants" then rt.check_list rt.invariants
  else .ok rt

mutual

/-- `Runtime.exec_stmt` (`runtime.py` lines 80–230, embedded fragment).
Each branch mirrors the corresponding `isinstance` branch of the
source; the leading `returning` guard mirrors lines 82–83. -/
def exec_stmt (rt : Runtime) (stmt : Stmt) : Except String Runtime :=
  if rt.returning then .ok rt
  else
    match stmt with
      | .energyDecl amount =>
          .ok { rt with energy := rt.energy.set_initial_energy amount }
      | .assignment name value is_stable =>
        match rt.eval_expr value with
        | .error msg => .error msg
        | .ok (v, rt1) =>
          if is_stable then
            let r := rt1.energy.spend "stable_var"
            if r.2 then
              .ok (Runtime.set_var { rt1 with energy := r.1 } name
                    (.stableV { value := v }) false)
            else .error "Insufficient energy for stable assignment"
          else
            .ok (rt1.set_var name (.unstableV (UnstableValue.mk0 v)) false)
      | .stabilizeStmt name =>
        match rt.get_var name with
        | .error msg => .error msg
        | .ok v =>
          let r := rt.energy.spend "stabilize"
          if r.2 then
            .ok (Runtime.write_back { rt with energy := r.1 } name
                  v.stabilizeValue)
          else .error "Insufficient energy to stabilize"
      | .invariantStmt condition =>
        if rt.energy.has_capability "invariants" then
          let r := rt.energy.spend "invariant"
          if r.2 then
            let rt1 := { rt with energy := r.1,
                                 invariants := rt.invariants ++ [condition] }
            match rt1.eval_expr condition with
            | .error msg => .error msg
            | .ok (v, rt2) =>
              if v = 0 then .error "Invariant violated on declaration"
              else .ok rt2
          else .error "Insufficient energy for invariant"
        else .error "Invariants capability has been removed"
      | .queryEnergy => .ok rt
      | .ret value =>
        match value with
        | some e =>
          match rt.eval_expr e with
          | .error msg => .error msg
          | .ok (v, rt1) =>
            .ok { rt1 with return_value := some v, returning := true }
        | none => .ok { rt with return_value := none, returning := true }
      | .forItems var items body => exec_for rt var items body
termination_by (sizeOf stmt, 0)

/-- The statement sequence inside a `for` body (`runtime.py` lines
218–221): execute each statement, stopping early once the `returning`
signal is set. -/
def exec_block (rt : Runtime) (stmts : List Stmt) : Except String Runtime :=
  match stmts with
  | [] => .ok rt
  | s :: rest =>
    match exec_stmt rt s with
    | .error msg => .error msg
    | .ok rt1 => if rt1.returning then .ok rt1 else exec_block rt1 rest
termination_by (sizeOf stmts, 0)

/-- The per-item loop of the `For` branch (`runtime.py` lines 216–221):
bind the loop variable to the item wrapped as a `StableValue` with
`is_local = true`, run the body, and stop the whole loop on a return
signal. -/
def exec_for (rt : Runtime) (var : String) (items : List Int)
    (body : List Stmt) : Except String Runtime :=
  match items with
  | [] => .ok rt
  | item :: rest =>
    let rt1 := rt.set_var var (.stableV { value := item }) true
    match exec_block rt1 body with
    | .error msg => .error msg
    | .ok rt2 => if rt2.returning then .ok rt2 else exec_for rt2 var rest body
termination_by (sizeOf body, items.length + 1)

end

/-- `Runtime.run` (`runtime.py` lines 69–78): execute each top-level
statement and re-check the registered invariants after it.  The final
escrow burn (`burn_unreleased_escrows`, lines 75–78) only computes a
total and prints a warning; it assigns no state, so `run` ends with the
state after the last statement. -/
def run (rt : Runtime) : List Stmt → Except String Runtime
  | [] => .ok rt
  | s :: rest =>
    match exec_stmt rt s with
    | .error msg => .error msg
    | .ok rt1 =>
      match rt1.check_invariants with
      | .error msg => .error msg
      | .ok rt2 => run rt2 rest

/-- The association-list state of repeatedly executing the loop-variable
binding of `runtime.py` line 217 (`set_var(var, StableValue(item),
is_local=True)`) over an item list, against one fixed frame (the top
local frame, or the globals when no frame exists). -/
def bindLoopVar (v : String) (frame : List (String × Value))
    (items : List Int) : List (String × Value) :=
  items.foldl (fun fr it => dictSet fr v (.stableV (StableValue.mk it))) frame

/-- The program `energy[100]; x <- 5; invariant x` followed by `n`
further top-level statements (`query energy`, a statement whose text
never reads `x`). -/
def invariantDriftProgram (n : Nat) : List Stmt :=
  [.energyDecl 100, .assignment "x" (.num 5) false,
   .invariantStmt (.ident "x")] ++ List.replicate n .queryEnergy

/-! ## Helper lemmas -/

/-- Looking a key up right after setting it yields the written value. -/
theorem dictGet_dictSet_self {α : Type} (l : List (String × α)) (k : String)
    (v : α) : dictGet (dictSet l k v) k = some v := by
  induction l with
  | nil => simp [dictGet, dictSet]
  | cons p rest ih =>
    obtain ⟨k2, v2⟩ := p
    by_cases h : k2 = k <;> simp [dictGet, dictSet, h, ih]

/-- Every read of a stable `UnstableValue` returns the frozen base. -/
theorem reads_of_stable (u : UnstableValue) (h : u.is_stable = true) :
    ∀ n, u.reads n = u.base_value := by
  intro n
  induction n with
  | zero => simp [UnstableValue.reads, UnstableValue.get, h]
  | succ n ih =>
    simpa [UnstableValue.reads, UnstableValue.get, h] using ih

/-- The `n`-th read of an unstabilized value is
`base_value + access_count + n`: the linear drift law of the code. -/
theorem reads_of_unstable :
    ∀ (n : Nat) (u : UnstableValue), u.is_stable = false →
      u.reads n = u.base_value + (u.access_count : Int) + (n : Int) := by
  intro n
  induction n with
  | zero =>
    intro u h
    simp [UnstableValue.reads, UnstableValue.get, h]
  | succ n ih =>
    intro u h
    have h2 := ih { u with access_count := u.access_count + 1 } h
    simp only [UnstableValue.reads, UnstableValue.get, h, Bool.false_eq_true,
      if_false] at h2 ⊢
    rw [h2]
    push_cast
    ring

/-! ## Claims -/

/-- Claim C3, counterexample.  The claim states that an unstable read
returns `baseValue + accessCount × entropy × pressure` with `entropy`
starting at 1 and growing by `pressure × 0.1` per read (`pressure = 1`
with no energy context).  On the code (`values.py` lines 18–28) the
second read of a fresh unstable value wrapping 5 returns 6, while the
claimed rule returns 6.1: the code keeps no entropy factor at all. -/
theorem C3_entropy_read_counterexample :
    (((UnstableValue.mk0 5).reads 1 : Int) : ℚ) ≠
      (SpecUnstableValue.get (SpecUnstableValue.get
        { baseValue := 5, accessCount := 0, entropy := 1,
          stableFlag := false }).2).1 := by
  have h1 : ((UnstableValue.mk0 5).reads 1 : Int) = 6 := by decide
  have h2 : (SpecUnstableValue.get (SpecUnstableValue.get
      { baseValue := 5, accessCount := 0, entropy := 1,
        stableFlag := false }).2).1 = 61 / 10 := by
    norm_num [SpecUnstableValue.get]
  rw [h1, h2]
  norm_num

/-- Claim C3, amended: for every unstable value with `is_stable` false,
a read returns `base_value + access_count` (the drift is the access
count itself — no entropy or pressure factor) and then increments
`access_count` by 1; when `is_stable` is true the read returns
`base_value` unchanged with no mutation. -/
theorem C3_amended_read_law (v : UnstableValue) :
    (v.is_stable = true → v.get = (v.base_value, v))
    ∧ (v.is_stable = false →
        v.get = (v.base_value + (v.access_count : Int),
                 { v with access_count := v.access_count + 1 })) := by
  constructor
  · intro h
    simp [UnstableValue.get, h]
  · intro h
    simp [UnstableValue.get, h]

/-- Witness for `C3_amended_read_law` at a concrete input. -/
theorem C3_amended_read_law_witness :
    UnstableValue.get { base_value := 5, access_count := 3, is_stable := false }
      = (8, { base_value := 5, access_count := 4, is_stable := false }) := by
  have h := (C3_amended_read_law
    { base_value := 5, access_count := 3, is_stable := false }).2 rfl
  simpa using h

/-- Claim C7: `stabilize` freezes an unstable value at the value its
next read would have produced; every subsequent read (any number of
reads later) returns that same constant, and `stabilize` is
idempotent. -/
theorem C7_stabilize_freezes (v : UnstableValue) (n : Nat) :
    (v.stabilize).is_stable = true
    ∧ (v.stabilize).reads n = (v.get).1
    ∧ v.stabilize.stabilize = v.stabilize := by
  by_cases h : v.is_stable = true
  · refine ⟨by simp [UnstableValue.stabilize, h], ?_, ?_⟩
    · rw [reads_of_stable _ (by simp [UnstableValue.stabilize, h]) n]
      simp [UnstableValue.stabilize, UnstableValue.get, h]
    · simp [UnstableValue.stabilize, h]
  · have h2 : v.is_stable = false := by simpa using h
    refine ⟨by simp [UnstableValue.stabilize, h2], ?_, ?_⟩
    · rw [reads_of_stable _ (by simp [UnstableValue.stabilize, h2]) n]
      simp [UnstableValue.stabilize, UnstableValue.get, h2]
    · simp [UnstableValue.stabilize, h2]

/-- Claim C8: reading an unstable value repeatedly yields a sequence
whose successive differences are non-decreasing: the step from read
`i+1` to read `i+2` is at least the step from read `i` to read `i+1`
(on the code the steps are constantly 1 for an unstabilized value and
constantly 0 for a stabilized one). -/
theorem C8_drift_steps_monotone (v : UnstableValue) (i : Nat) :
    v.reads (i + 1) - v.reads i ≤ v.reads (i + 2) - v.reads (i + 1) := by
  by_cases h : v.is_stable = true
  · simp [reads_of_stable v h]
  · have h2 : v.is_stable = false := by simpa using h
    rw [reads_of_unstable (i + 1) v h2, reads_of_unstable i v h2,
        reads_of_unstable (i + 2) v h2]
    push_cast
    ring_nf
    omega

/-- Every configured capability-removal gain is positive. -/
theorem removal_gains_pos {cap : String} {g : Int}
    (h : dictGet REMOVAL_GAINS cap = some g) : 0 < g := by
  simp only [REMOVAL_GAINS, dictGet] at h
  split_ifs at h <;> simp_all <;> omega

/-- Claim C6: `spend` looks up the cost (0 for unconfigured
operations), deducts it and reports success exactly when the current
energy covers it, mutates nothing on failure, and a successful spend
never leaves `current_energy` negative. -/
theorem C6_spend_guarded (s : EnergySystem) (op : String) :
    (dictGet COSTS op = none → EnergySystem.check_cost op = 0)
    ∧ (EnergySystem.check_cost op ≤ s.current_energy →
        s.spend op = ({ s with current_energy :=
          s.current_energy - EnergySystem.check_cost op }, true))
    ∧ (s.current_energy < EnergySystem.check_cost op → s.spend op = (s, false))
    ∧ ((s.spend op).2 = true → 0 ≤ (s.spend op).1.current_energy) := by
  refine ⟨fun h => by simp [EnergySystem.check_cost, h], ?_, ?_, ?_⟩
  · intro h
    simp only [EnergySystem.check_cost] at h
    simp only [EnergySystem.spend]
    split_ifs with hc
    · rfl
    · exact absurd h hc
  · intro h
    simp only [EnergySystem.check_cost] at h
    simp only [EnergySystem.spend]
    split_ifs with hc
    · exact absurd hc (not_le.mpr h)
    · rfl
  · simp only [EnergySystem.spend]
    split_ifs with hc
    · intro _
      show 0 ≤ s.current_energy - (dictGet COSTS op).getD 0
      omega
    · intro h
      exact absurd h (by simp)

/-- Witness for `C6_spend_guarded`: an affordable spend (`assert`, cost
1, from energy 10) deducts and succeeds; an unaffordable one (from
energy 0) mutates nothing and fails. -/
theorem C6_spend_guarded_witness :
    (EnergySystem.init.set_initial_energy 10).spend "assert"
      = ({ EnergySystem.init.set_initial_energy 10 with
            current_energy := 9 }, true)
    ∧ (EnergySystem.init.set_initial_energy 0).spend "assert"
      = (EnergySystem.init.set_initial_energy 0, false) := by
  constructor
  · have h := (C6_spend_guarded (EnergySystem.init.set_initial_energy 10)
      "assert").2.1 (by decide)
    rw [h]
    decide
  · exact (C6_spend_guarded (EnergySystem.init.set_initial_energy 0)
      "assert").2.2.1 (by decide)

/-- Claim C5: `remove_capability` fails with no mutation when the
capability is already removed or has no configured gain (so a second
removal of the same capability is a failing no-op), and on success adds
the capability to the removed set and credits the configured gain to
both `current_energy` and `max_energy` by exactly the same amount. -/
theorem C5_remove_capability_spec (s : EnergySystem) (cap : String) :
    (cap ∈ s.removed_capabilities → s.remove_capability cap = (s, false))
    ∧ (dictGet REMOVAL_GAINS cap = none → s.remove_capability cap = (s, false))
    ∧ (∀ g : Int, cap ∉ s.removed_capabilities →
        dictGet REMOVAL_GAINS cap = some g →
        s.remove_capability cap =
          ({ s with removed_capabilities := cap :: s.removed_capabilities,
                    max_energy := s.max_energy + g,
                    current_energy := s.current_energy + g }, true))
    ∧ ((s.remove_capability cap).2 = true →
        (s.remove_capability cap).1.remove_capability cap
          = ((s.remove_capability cap).1, false)) := by
  refine ⟨?_, ?_, ?_, ?_⟩
  · intro h
    simp [EnergySystem.remove_capability, h]
  · intro h
    by_cases hm : cap ∈ s.removed_capabilities
    · simp [EnergySystem.remove_capability, hm]
    · simp [EnergySystem.remove_capability, hm, h]
  · intro g hm hg
    have hpos := removal_gains_pos hg
    simp [EnergySystem.remove_capability, hm, hg, hpos]
  · intro h
    by_cases hm : cap ∈ s.removed_capabilities
    · rw [show s.remove_capability cap = (s, false) by
        simp [EnergySystem.remove_capability, hm]] at h
      exact absurd h (by simp)
    · rcases hg : dictGet REMOVAL_GAINS cap with _ | g
      · rw [show s.remove_capability cap = (s, false) by
          simp [EnergySystem.remove_capability, hm, hg]] at h
        exact absurd h (by simp)
      · have hpos := removal_gains_pos hg
        have hr : s.remove_capability cap =
            ({ s with removed_capabilities := cap :: s.removed_capabilities,
                      max_energy := s.max_energy + g,
                      current_energy := s.current_energy + g }, true) := by
          simp [EnergySystem.remove_capability, hm, hg, hpos]
        rw [hr]
        simp [EnergySystem.remove_capability]

/-- Witness for `C5_remove_capability_spec`: removing `invariants` from
a fresh 100-energy ledger credits 20 to both fields, and a second
removal is a failing no-op. -/
theorem C5_remove_capability_witness :
    (EnergySystem.init.set_initial_energy 100).remove_capability "invariants"
      = ({ EnergySystem.init.set_initial_energy 100 with
            removed_capabilities := ["invariants"],
            max_energy := 120, current_energy := 120 }, true)
    ∧ (((EnergySystem.init.set_initial_energy 100).remove_capability
          "invariants").1.remove_capability "invariants")
      = (((EnergySystem.init.set_initial_energy 100).remove_capability
          "invariants").1, false) := by
  constructor
  · have h := (C5_remove_capability_spec
      (EnergySystem.init.set_initial_energy 100) "invariants").2.2.1 20
      (by decide) (by decide)
    rw [h]
    decide
  · exact (C5_remove_capability_spec
      (EnergySystem.init.set_initial_energy 100) "invariants").2.2.2
      (by decide)

/-- Claim C4: for a name with a registered escrow, the first
`release_escrow` call records the output as `last_output`, marks the
escrow released, credits the escrow amount to `current_energy` and
returns it unconditionally; the second call deducts 6 and returns −6
exactly when the output repeats, else returns 0 leaving
`current_energy` unchanged; every later call returns 0 and leaves
`current_energy` unchanged (only `call_count` advances); a call for a
name with no registered escrow returns 0 with no mutation at all.
Escrows are registered by `create_escrow` with amount 4. -/
theorem C4_release_escrow_spec (s : EnergySystem) (name : String)
    (output : Int) :
    (dictGet s.escrows name = none → s.release_escrow name output = (s, 0))
    ∧ (∀ e : EnergyEscrow, dictGet s.escrows name = some e →
        (e.call_count = 0 →
          s.release_escrow name output =
            ({ s with
                escrows := dictSet s.escrows name
                  ({ e with call_count := 1, last_output := some output,
                            released := true }),
                current_energy := s.current_energy + e.amount }, e.amount))
        ∧ (e.call_count = 1 →
            (e.last_output = some output →
              s.release_escrow name output =
                ({ s with
                    escrows := dictSet s.escrows name
                      ({ e with call_count := 2 }),
                    current_energy := s.current_energy - 6 }, -6))
            ∧ (e.last_output ≠ some output →
              s.release_escrow name output =
                ({ s with
                    escrows := dictSet s.escrows name
                      ({ e with call_count := 2 }) }, 0)))
        ∧ (2 ≤ e.call_count →
            s.release_escrow name output =
              ({ s with
                  escrows := dictSet s.escrows name
                    ({ e with call_count := e.call_count + 1 }) }, 0)))
    ∧ (∀ fn : String,
        dictGet ((s.create_escrow fn true).escrows) fn =
          some { function_name := fn, amount := 4, released := false,
                 call_count := 0, last_output := none }) := by
  refine ⟨?_, ?_, ?_⟩
  · intro h
    simp [EnergySystem.release_escrow, h]
  · intro e he
    refine ⟨?_, ?_, ?_⟩
    · intro hc
      simp [EnergySystem.release_escrow, he, hc]
    · intro hc
      constructor
      · intro hout
        simp [EnergySystem.release_escrow, he, hc, hout]
      · intro hout
        have hne : ¬ (some output = e.last_output) := fun hh => hout hh.symm
        simp [EnergySystem.release_escrow, he, hc, hne]
    · intro hc
      have h1 : ¬ (e.call_count + 1 = 1) := by omega
      have h2 : ¬ (e.call_count + 1 = 2) := by omega
      simp [EnergySystem.release_escrow, he, h1, h2]
  · intro fn
    simp only [EnergySystem.create_escrow, if_pos]
    rw [show (dictGet GAINS "unstable_fn_call").getD 0 = 4 by decide]
    exact dictGet_dictSet_self _ _ _

/-- Witness for `C4_release_escrow_spec`: on a fresh escrow for `f` in
a 10-energy ledger, the first call with output 7 pays out 4; calling
with a name that has no escrow returns 0 with no mutation. -/
theorem C4_release_escrow_witness :
    (((EnergySystem.init.set_initial_energy 10).create_escrow "f"
        true).release_escrow "f" 7).2 = 4
    ∧ ((EnergySystem.init.set_initial_energy 10).release_escrow "g" 7)
      = (EnergySystem.init.set_initial_energy 10, 0) := by
  constructor
  · have h := ((C4_release_escrow_spec
      ((EnergySystem.init.set_initial_energy 10).create_escrow "f" true)
      "f" 7).2.1
      { function_name := "f", amount := 4, released := false,
        call_count := 0, last_output := none } (by decide)).1 rfl
    rw [h]
  · exact (C4_release_escrow_spec
      (EnergySystem.init.set_initial_energy 10) "g" 7).1 (by decide)

/-- Claim C9: `current_energy ≥ 0` is not a ledger invariant.  In a
reachable state — energy declared as 1, an unstable function declared
(cost 1) and its escrow created, then released twice with equal
outputs — the second-call penalty drives `current_energy` to −2, while
`spend` and `remove_capability` both preserve non-negativity
(release's penalty branch is the only unguarded deduction). -/
theorem C9_negative_energy_reachable :
    ((((((EnergySystem.init.set_initial_energy 1).spend
        "declare_unstable_fn").1.create_escrow "f" true).release_escrow
        "f" 7).1.release_escrow "f" 7).1.current_energy = -2)
    ∧ (∀ (s : EnergySystem) (op : String), 0 ≤ s.current_energy →
        0 ≤ ((s.spend op).1).current_energy)
    ∧ (∀ (s : EnergySystem) (cap : String), 0 ≤ s.current_energy →
        0 ≤ ((s.remove_capability cap).1).current_energy) := by
  refine ⟨by decide, ?_, ?_⟩
  · intro s op h
    simp only [EnergySystem.spend]
    split_ifs with hc
    · show 0 ≤ s.current_energy - (dictGet COSTS op).getD 0
      omega
    · exact h
  · intro s cap h
    simp only [EnergySystem.remove_capability]
    split_ifs with h1 h2
    · exact h
    · show 0 ≤ s.current_energy + (dictGet REMOVAL_GAINS cap).getD 0
      omega
    · exact h

/-- Witness for `C9_negative_energy_reachable`: the guarded operations
applied at concrete non-negative states stay non-negative. -/
theorem C9_negative_energy_witness :
    0 ≤ ((EnergySystem.init.set_initial_energy 3).spend
          "stabilize").1.current_energy
    ∧ 0 ≤ ((EnergySystem.init.set_initial_energy 3).remove_capability
          "inspection").1.current_energy := by
  exact ⟨C9_negative_energy_reachable.2.1
          (EnergySystem.init.set_initial_energy 3) "stabilize" (by decide),
        C9_negative_energy_reachable.2.2
          (EnergySystem.init.set_initial_energy 3) "inspection" (by decide)⟩

/-- Claim C1 (`burn_unreleased_escrows`): the claim requires the burn to
deduct each unreleased escrow's amount from `current_energy` and return
the total.  The code (`energy.py` lines 121–130) computes and returns
the total but performs no deduction: on a 10-energy ledger holding one
unreleased escrow of amount 4 it returns 4 with `current_energy` still
10, while the claimed (spec-side) contract leaves `current_energy` at
6.  The spec names the non-deducting variant a historical defect, so
this is a bug in the code, not in the claim. -/
theorem C1_burn_divergence :
    ((EnergySystem.init.set_initial_energy 10).create_escrow "f"
        true).burn_unreleased_escrows = 4
    ∧ ((EnergySystem.init.set_initial_energy 10).create_escrow "f"
        true).current_energy = 10
    ∧ (((EnergySystem.init.set_initial_energy 10).create_escrow "f"
        true).burn_unreleased_escrows_spec).2 = 4
    ∧ (((EnergySystem.init.set_initial_energy 10).create_escrow "f"
        true).burn_unreleased_escrows_spec).1.current_energy = 6 := by
  decide

/-- `set_var` with `is_local = false` always writes the globals. -/
theorem set_var_global (rt : Runtime) (n : String) (val : Value) :
    rt.set_var n val false = { rt with globals := dictSet rt.globals n val } := by
  cases h : rt.locals_stack <;> simp [Runtime.set_var, h]

/-- `set_var` with `is_local = true` writes the top local frame when one
exists. -/
theorem set_var_local_cons (rt : Runtime) (n : String) (val : Value)
    (frame : List (String × Value)) (rest2 : List (List (String × Value)))
    (h : rt.locals_stack = frame :: rest2) :
    rt.set_var n val true =
      { rt with locals_stack := dictSet frame n val :: rest2 } := by
  simp [Runtime.set_var, h]

/-- `set_var` with `is_local = true` but no local frame falls through to
the globals (`runtime.py` lines 45–48). -/
theorem set_var_local_nil (rt : Runtime) (n : String) (val : Value)
    (h : rt.locals_stack = []) :
    rt.set_var n val true = { rt with globals := dictSet rt.globals n val } := by
  simp [Runtime.set_var, h]

/-- Unfolding: an empty `for`-item list leaves the state unchanged. -/
theorem exec_for_nil (rt : Runtime) (v : String) (body : List Stmt) :
    exec_for rt v [] body = .ok rt := by
  rw [exec_for.eq_def]

/-- Unfolding: one `for` iteration binds the item and runs the body. -/
theorem exec_for_cons (rt : Runtime) (v : String) (i : Int)
    (rest : List Int) (body : List Stmt) :
    exec_for rt v (i :: rest) body =
      (match exec_block (rt.set_var v (.stableV (StableValue.mk i)) true) body with
       | .error msg => .error msg
       | .ok rt2 =>
           if rt2.returning then .ok rt2 else exec_for rt2 v rest body) := by
  rw [exec_for.eq_def]

/-- Unfolding: an empty body block is a no-op. -/
theorem exec_block_nil (rt : Runtime) : exec_block rt [] = .ok rt := by
  rw [exec_block.eq_def]

/-- Unfolding: a block runs its head statement, stopping on a return
signal. -/
theorem exec_block_cons (rt : Runtime) (s : Stmt) (rest : List Stmt) :
    exec_block rt (s :: rest) =
      (match exec_stmt rt s with
       | .error msg => .error msg
       | .ok rt1 =>
           if rt1.returning then .ok rt1 else exec_block rt1 rest) := by
  rw [exec_block.eq_def]

/-- A plain (non-`stable`) assignment of a number literal wraps it as a
fresh `UnstableValue` and writes the globals, whatever the local
stack. -/
theorem exec_stmt_assign_num (rt : Runtime) (n : String) (k : Int)
    (h : rt.returning = false) :
    exec_stmt rt (.assignment n (.num k) false) =
      .ok { rt with
            globals := dictSet rt.globals n (.unstableV (UnstableValue.mk0 k)) }
    := by
  rw [exec_stmt.eq_def]
  simp [h, Runtime.eval_expr, set_var_global]

/-- Claim C2, counterexample.  The claim states that a for-loop over a
variable name bound globally before the loop leaves the prior global
binding unchanged.  At top level the locals stack is empty, so the
loop-variable write of `runtime.py` line 217 falls through `set_var`
(lines 45–48) to the globals: with `x` globally bound to
`UnstableValue(5)`, running `for x in [1] { }` replaces the global
binding by `StableValue(1)`. -/
theorem C2_for_loop_counterexample :
    exec_for { Runtime.init with
        globals := [("x", .unstableV (UnstableValue.mk0 5))] } "x" [1] []
      = .ok { Runtime.init with globals := [("x", .stableV (StableValue.mk 1))] }
    ∧ (Value.stableV (StableValue.mk 1)) ≠ .unstableV (UnstableValue.mk0 5) := by
  constructor
  · rw [exec_for_cons]
    rw [set_var_local_nil _ _ _ (by rfl)]
    rw [exec_block_nil]
    simp [Runtime.init, dictSet, exec_for_nil]
  · decide

/-- Claim C2, amended: when the loop executes with at least one local
frame on the stack (as inside a function call), the loop variable is
bound into the top local frame and the globals — in particular the
prior global binding of the loop-variable name — are unchanged after
the loop, whereas a plain assignment inside the loop body does
overwrite the global binding; at top level, where the locals stack is
empty, the loop-variable binding itself falls through to the globals
and overwrites the prior global binding. -/
theorem C2_for_loop_amended :
    (∀ (rt : Runtime) (frame : List (String × Value))
        (rest2 : List (List (String × Value))) (v : String) (items : List Int),
        rt.locals_stack = frame :: rest2 → rt.returning = false →
        exec_for rt v items [] =
          .ok { rt with locals_stack := bindLoopVar v frame items :: rest2 })
    ∧ (∀ (rt : Runtime) (v : String) (items : List Int),
        rt.returning = false → items ≠ [] →
        ∃ rt2, exec_for rt v items [.assignment v (.num 99) false] = .ok rt2
          ∧ dictGet rt2.globals v = some (.unstableV (UnstableValue.mk0 99)))
    ∧ (∀ (rt : Runtime) (v : String) (items : List Int),
        rt.locals_stack = [] → rt.returning = false →
        exec_for rt v items [] =
          .ok { rt with globals := bindLoopVar v rt.globals items }) := by
  refine ⟨?_, ?_, ?_⟩
  · intro rt frame rest2 v items
    induction items generalizing rt frame with
    | nil =>
      intro hls hret
      rw [exec_for_nil, bindLoopVar, List.foldl_nil, ← hls]
    | cons i rest ih =>
      intro hls hret
      rw [exec_for_cons, set_var_local_cons _ _ _ _ _ hls, exec_block_nil]
      simp only [hret, if_false, bindLoopVar, List.foldl_cons]
      rw [show (List.foldl (fun fr it => dictSet fr v (Value.stableV (StableValue.mk it))) (dictSet frame v (Value.stableV (StableValue.mk i))) rest) = bindLoopVar v (dictSet frame v (Value.stableV (StableValue.mk i))) rest from rfl]
      exact ih _ _ rfl rfl
  · intro rt v items
    induction items generalizing rt with
    | nil => intro _ h; exact absurd rfl h
    | cons i rest ih =>
      intro hret _
      have hret1 : (rt.set_var v (.stableV (StableValue.mk i)) true).returning
          = false := by
        cases h : rt.locals_stack <;>
          simp [Runtime.set_var, h, hret]
      have hstep : exec_for rt v (i :: rest) [.assignment v (.num 99) false]
          = exec_for
              { rt.set_var v (.stableV (StableValue.mk i)) true with
                globals := dictSet
                  (rt.set_var v (.stableV (StableValue.mk i)) true).globals v
                  (.unstableV (UnstableValue.mk0 99)) }
              v rest [.assignment v (.num 99) false] := by
        rw [exec_for_cons, exec_block_cons, exec_stmt_assign_num _ _ _ hret1]
        simp [hret1, exec_block_nil]
      rcases rest with _ | ⟨j, rest⟩
      · rw [hstep, exec_for_nil]
        exact ⟨_, rfl, dictGet_dictSet_self _ _ _⟩
      · rw [hstep]
        exact ih _ (by simp [hret1]) (by simp)
  · intro rt v items
    induction items generalizing rt with
    | nil =>
      intro hls hret
      rw [exec_for_nil, bindLoopVar, List.foldl_nil]
    | cons i rest ih =>
      intro hls hret
      rw [exec_for_cons, set_var_local_nil _ _ _ hls, exec_block_nil]
      simp only [hret, if_false, bindLoopVar, List.foldl_cons]
      rw [show (List.foldl (fun fr it => dictSet fr v (Value.stableV (StableValue.mk it))) (dictSet rt.globals v (Value.stableV (StableValue.mk i))) rest) = bindLoopVar v (dictSet rt.globals v (Value.stableV (StableValue.mk i))) rest from rfl]
      exact ih _ hls rfl

/-- Witness for `C2_for_loop_amended`: inside one local frame, a loop
over `[1, 2]` with empty body leaves an existing global `x` binding
untouched and binds `x` in the frame; at top level the same loop
rewrites the global binding. -/
theorem C2_for_loop_amended_witness :
    exec_for { Runtime.init with
        globals := [("x", .unstableV (UnstableValue.mk0 5))],
        locals_stack := [[]] } "x" [1, 2] []
      = .ok { Runtime.init with
          globals := [("x", .unstableV (UnstableValue.mk0 5))],
          locals_stack := [[("x", .stableV (StableValue.mk 2))]] }
    ∧ exec_for { Runtime.init with
        globals := [("x", .unstableV (UnstableValue.mk0 5))] } "x" [1, 2] []
      = .ok { Runtime.init with
          globals := [("x", .stableV (StableValue.mk 2))] } := by
  constructor
  · have h := C2_for_loop_amended.1 { Runtime.init with
      globals := [("x", .unstableV (UnstableValue.mk0 5))],
      locals_stack := [[]] } [] [] "x" [1, 2] rfl rfl
    rw [h]
    simp [bindLoopVar, dictSet]
  · have h := C2_for_loop_amended.2.2 { Runtime.init with
      globals := [("x", .unstableV (UnstableValue.mk0 5))] } "x" [1, 2]
      rfl rfl
    rw [h]
    simp [bindLoopVar, dictSet]

/-- `query energy` only prints; the state is unchanged. -/
theorem exec_stmt_query (rt : Runtime) (h : rt.returning = false) :
    exec_stmt rt .queryEnergy = .ok rt := by
  rw [exec_stmt.eq_def]
  simp [h]

/-- One step of `run`: execute the head statement, then re-check the
registered invariants, then continue. -/
theorem run_cons_ok (rt rt1 rt2 : Runtime) (s : Stmt) (rest : List Stmt)
    (h1 : exec_stmt rt s = .ok rt1) (h2 : rt1.check_invariants = .ok rt2) :
    run rt (s :: rest) = run rt2 rest := by
  simp [run, h1, h2]

/-- Re-checking a registered invariant `x` with `x` globally bound to an
unstabilized `UnstableValue` (base 5, count `c`) succeeds and advances
the access count to `c + 1`: the recheck itself reads the variable. -/
theorem check_invariants_drift (es : EnergySystem) (c : Nat) (rv : Option Int)
    (hcap : es.has_capability "invariants" = true) :
    Runtime.check_invariants
      { energy := es,
        globals := [("x", .unstableV ⟨5, c, false⟩)],
        locals_stack := [], invariants := [.ident "x"],
        return_value := rv, returning := false }
      = .ok { energy := es,
              globals := [("x", .unstableV ⟨5, c + 1, false⟩)],
              locals_stack := [], invariants := [.ident "x"],
              return_value := rv, returning := false } := by
  have hne : (5 : Int) + (c : Int) ≠ 0 := by omega
  simp [Runtime.check_invariants, hcap, Runtime.check_list, Runtime.eval_expr,
        Runtime.get_var, Runtime.write_back, Value.get, UnstableValue.get,
        dictGet, dictSet, hne]

/-- Running `n` `query energy` statements (none of which mentions `x`)
under a registered invariant `x` advances the access count of `x` by
exactly `n`: one read per post-statement recheck. -/
theorem run_query_drift (n : Nat) :
    ∀ (es : EnergySystem) (c : Nat) (rv : Option Int),
      es.has_capability "invariants" = true →
      run { energy := es,
            globals := [("x", .unstableV ⟨5, c, false⟩)],
            locals_stack := [], invariants := [.ident "x"],
            return_value := rv, returning := false }
          (List.replicate n .queryEnergy)
        = .ok { energy := es,
                globals := [("x", .unstableV ⟨5, c + n, false⟩)],
                locals_stack := [], invariants := [.ident "x"],
                return_value := rv, returning := false } := by
  induction n with
  | zero =>
    intro es c rv hcap
    simp [run]
  | succ n ih =>
    intro es c rv hcap
    rw [List.replicate_succ]
    rw [run_cons_ok _ _ _ _ _ (exec_stmt_query _ rfl)
      (check_invariants_drift es c rv hcap)]
    rw [ih es (c + 1) rv hcap]
    rw [show c + 1 + n = c + (n + 1) from by omega]

/-- Claim C10: invariant rechecking is not observation-free.  Running
`energy[100]; x <- 5; invariant x` followed by `n` `query energy`
statements — statements whose text never reads `x` — leaves `x` with
access count `2 + n`: one read from the invariant's immediate check, one
from the recheck after the invariant statement itself, and one per
subsequent top-level statement, each recheck calling `get()` on the
unstabilized value and advancing its drift. -/
theorem C10_invariant_recheck_drift (n : Nat) :
    run Runtime.init (invariantDriftProgram n)
      = .ok { energy := { current_energy := 90, max_energy := 100,
                          removed_capabilities := [], escrows := [] },
              globals := [("x", .unstableV ⟨5, 2 + n, false⟩)],
              locals_stack := [], invariants := [.ident "x"],
              return_value := none, returning := false } := by
  have h1 : exec_stmt Runtime.init (.energyDecl 100)
      = .ok { Runtime.init with
          energy := { current_energy := 100, max_energy := 100,
                      removed_capabilities := [], escrows := [] } } := by
    rw [exec_stmt.eq_def]
    simp [Runtime.init, EnergySystem.set_initial_energy, EnergySystem.init]
  have h2 : Runtime.check_invariants { Runtime.init with
      energy := { current_energy := 100, max_energy := 100,
                  removed_capabilities := [], escrows := [] } }
      = .ok { Runtime.init with
          energy := { current_energy := 100, max_energy := 100,
                      removed_capabilities := [], escrows := [] } } := by
    simp [Runtime.check_invariants, Runtime.check_list, Runtime.init]
  have h3 : exec_stmt { Runtime.init with
      energy := { current_energy := 100, max_energy := 100,
                  removed_capabilities := [], escrows := [] } }
      (.assignment "x" (.num 5) false)
      = .ok { energy := { current_energy := 100, max_energy := 100,
                          removed_capabilities := [], escrows := [] },
              globals := [("x", .unstableV ⟨5, 0, false⟩)],
              locals_stack := [], invariants := [],
              return_value := none, returning := false } := by
    rw [exec_stmt_assign_num _ _ _ rfl]
    simp [Runtime.init, dictSet, UnstableValue.mk0]
  have h4 : Runtime.check_invariants
      { energy := { current_energy := 100, max_energy := 100,
                    removed_capabilities := [], escrows := [] },
        globals := [("x", .unstableV ⟨5, 0, false⟩)],
        locals_stack := [], invariants := [],
        return_value := none, returning := false }
      = .ok { energy := { current_energy := 100, max_energy := 100,
                          removed_capabilities := [], escrows := [] },
              globals := [("x", .unstableV ⟨5, 0, false⟩)],
              locals_stack := [], invariants := [],
              return_value := none, returning := false } := by
    simp [Runtime.check_invariants, Runtime.check_list]
  have h5 : exec_stmt
      { energy := { current_energy := 100, max_energy := 100,
                    removed_capabilities := [], escrows := [] },
        globals := [("x", .unstableV ⟨5, 0, false⟩)],
        locals_stack := [], invariants := [],
        return_value := none, returning := false }
      (.invariantStmt (.ident "x"))
      = .ok { energy := { current_energy := 90, max_energy := 100,
                          removed_capabilities := [], escrows := [] },
              globals := [("x", .unstableV ⟨5, 1, false⟩)],
              locals_stack := [], invariants := [.ident "x"],
              return_value := none, returning := false } := by
    rw [exec_stmt.eq_def]
    simp [EnergySystem.has_capability, EnergySystem.spend, COSTS, dictGet,
          Runtime.eval_expr, Runtime.get_var, Runtime.write_back, Value.get,
          UnstableValue.get, dictSet]
  have h6 := check_invariants_drift
    { current_energy := 90, max_energy := 100,
      removed_capabilities := [], escrows := [] } 1 none (by decide)
  have hsplit : invariantDriftProgram n =
      .energyDecl 100 :: .assignment "x" (.num 5) false ::
        .invariantStmt (.ident "x") :: List.replicate n .queryEnergy := by
    simp [invariantDriftProgram]
  rw [hsplit, run_cons_ok _ _ _ _ _ h1 h2, run_cons_ok _ _ _ _ _ h3 h4,
      run_cons_ok _ _ _ _ _ h5 h6,
      run_query_drift n { current_energy := 90, max_energy := 100,
                          removed_capabilities := [], escrows := [] }
        (1 + 1) none (by decide)]

end Hiesenoether
